import Mathlib

/-!
Verification development for the text pseudonymization engine of the
mcp-server repository (`src/mcp-textpseudomizer/src/`).

Modelling conventions.

* Python strings are Lean `String`s; the string operations the engine uses
  (`str.strip`, `str.lower`, `str.split`, slicing, `int(...)`) are
  re-implemented structurally over `List Char` so that concrete inputs
  evaluate inside the kernel.  The implementations follow CPython semantics
  on the ASCII inputs the engine handles.
* Python `dict`s are insertion-ordered association lists.  `dinsert`
  mirrors `d[k] = v` (update in place, append when the key is new) and
  `dget` mirrors `d.get(k)`.
* Confidence scores are exact decimal fractions in the source
  (0.5, 0.8, 0.85, 0.9, 0.95, 1.0, …).  They are modelled as integers in
  hundredths (50, 80, 85, 90, 95, 100, …); every comparison performed by the
  code (`>`, `>=`, `==`) is preserved by this order-embedding.
* The external collaborators — the flair NER model, the regex engine,
  `dateparser`, the language detector — are parameters (functions passed to
  the orchestrator / extractors), exactly as the spec treats them
  (external collaborators behind an interface).
* `uuid.uuid4()` results are nondeterministic opaque strings; each operation
  that may generate one takes it as an explicit argument (`freshSid`,
  `createdAt`, …).
* `json.dumps` / `json.loads` round-trip the export payload faithfully, so
  export/import are modelled on the structured document itself
  (`MappingsDocument`) rather than on its serialized text.
-/

/-! ## Python string primitives -/

/-- Characters removed by Python `str.strip()` (ASCII whitespace). -/
def pyIsSpace (c : Char) : Bool := c.isWhitespace

/-- `str.strip()` on a character list. -/
def stripChars (l : List Char) : List Char :=
  ((l.dropWhile pyIsSpace).reverse.dropWhile pyIsSpace).reverse

/-- `str.strip()`. -/
def pyStrip (s : String) : String := ⟨stripChars s.data⟩

/-- `str.lower()` (ASCII). -/
def pyLower (s : String) : String := ⟨s.data.map Char.toLower⟩

/-- `str.upper()` (ASCII). -/
def pyUpper (s : String) : String := ⟨s.data.map Char.toUpper⟩

/-- Python "cased character", restricted to ASCII letters. -/
def pyIsCased (c : Char) : Bool := c.isAlpha

/-- `str.isupper()`: at least one cased character and no lowercase one. -/
def pyIsUpperStr (s : String) : Bool :=
  s.data.any pyIsCased && s.data.all (fun c => !pyIsCased c || c.isUpper)

/-- `str.islower()`: at least one cased character and no uppercase one. -/
def pyIsLowerStr (s : String) : Bool :=
  s.data.any pyIsCased && s.data.all (fun c => !pyIsCased c || c.isLower)

/-- Worker for `str.istitle()`: `prevCased` tracks whether the previous
character was cased, `found` whether any cased character was seen. -/
def pyIsTitleAux : Bool → Bool → List Char → Bool
  | _, found, [] => found
  | prevCased, found, c :: rest =>
    if c.isUpper then
      if prevCased then false else pyIsTitleAux true true rest
    else if c.isLower then
      if prevCased then pyIsTitleAux true true rest else false
    else
      pyIsTitleAux false found rest

/-- `str.istitle()` (ASCII). -/
def pyIsTitleStr (s : String) : Bool := pyIsTitleAux false false s.data

/-- Worker for `str.title()`. -/
def pyTitleAux : Bool → List Char → List Char
  | _, [] => []
  | prevAlpha, c :: rest =>
    if c.isAlpha then
      (if prevAlpha then c.toLower else c.toUpper) :: pyTitleAux true rest
    else
      c :: pyTitleAux false rest

/-- `str.title()` (ASCII). -/
def pyTitle (s : String) : String := ⟨pyTitleAux false s.data⟩

/-- The segment of `l` after its last `'_'`; `"x_y".split("_")[-1]`
returns the whole string when no underscore is present. -/
def lastUnderscoreSeg : List Char → List Char → List Char
  | cur, [] => cur.reverse
  | cur, c :: rest =>
    if c = '_' then lastUnderscoreSeg [] rest else lastUnderscoreSeg (c :: cur) rest

/-- `s.split("_")[-1]`. -/
def lastSegment (s : String) : String := ⟨lastUnderscoreSeg [] s.data⟩

/-- Numeric value of a digit list. -/
def digitsToNat (l : List Char) : Nat :=
  l.foldl (fun acc c => acc * 10 + (c.toNat - '0'.toNat)) 0

/-- Python `int(s)`: strips whitespace, accepts an optional sign followed by
one or more digits, raises (here: `none`) otherwise.  The callers below pass
a `split("_")` segment, so digit-grouping underscores cannot occur. -/
def pyInt? (s : String) : Option Int :=
  let core : Int → List Char → Option Int := fun sign ds =>
    if ds ≠ [] ∧ ds.all Char.isDigit then some (sign * digitsToNat ds) else none
  match stripChars s.data with
  | '-' :: rest => core (-1) rest
  | '+' :: rest => core 1 rest
  | ds => core 1 ds

/-! ## Python dictionaries as insertion-ordered association lists -/

/-- `d.get(k)` / `k in d`. -/
def dget {β : Type} (l : List (String × β)) (k : String) : Option β :=
  (l.find? (fun p => p.1 == k)).map (·.2)

/-- `d[k] = v`: replace in place when the key exists, append otherwise. -/
def dinsert {β : Type} : List (String × β) → String → β → List (String × β)
  | [], k, v => [(k, v)]
  | p :: rest, k, v => if p.1 == k then (k, v) :: rest else p :: dinsert rest k v

/-! ## EntityMapper (`entity_mapping.py`) -/

/-- `EntityMapping` dataclass: one original→pseudonym row. -/
structure EntityMapping where
  original : String
  pseudonym : String
  entityType : String
  sessionId : String
  createdAt : String
deriving DecidableEq, Repr

/-- The mutable state of one `EntityMapper` instance: `session_id`,
`_mappings`, `_type_counters` (a `defaultdict(int)`), `_reverse_mappings`. -/
structure MapperState where
  sessionId : String
  mappings : List (String × EntityMapping)
  typeCounters : List (String × Int)
  reverseMappings : List (String × String)
deriving DecidableEq, Repr

/-- `EntityMapper.__init__` with an explicit session id. -/
def freshMapper (sid : String) : MapperState :=
  { sessionId := sid, mappings := [], typeCounters := [], reverseMappings := [] }

/-- `_normalize_entity_text`: strip whitespace, lowercase. -/
def normalizeEntityText (text : String) : String := pyLower (pyStrip text)

/-- The `_mappings` key `f"{normalized_text}:{entity_type}"`. -/
def mappingKey (text entityType : String) : String :=
  normalizeEntityText text ++ ":" ++ entityType

/-- Reading a `defaultdict(int)` returns 0 for unknown keys. -/
def counterGet (l : List (String × Int)) (k : String) : Int := (dget l k).getD 0

/-- The `type_mapping` table of `_generate_pseudonym`. -/
def prefixForType (entityType : String) : String :=
  (dget [("PER", "PERSON"), ("LOC", "LOCATION"), ("ORG", "ORGANIZATION"),
         ("MISC", "MISC"), ("DATE", "DATE"), ("EMAIL", "EMAIL"),
         ("PHONE", "PHONE"), ("ID", "ID"), ("IBAN", "IBAN"),
         ("LICENSE", "LICENSE")] entityType).getD entityType

/-- `_generate_pseudonym`: `f"{prefix}_{counter}"`. -/
def generatePseudonym (entityType : String) (counter : Int) : String :=
  prefixForType entityType ++ "_" ++ toString counter

/-- `get_or_create_pseudonym`.  `createdAt` stands for the `str(uuid.uuid4())`
default of the dataclass field. -/
def getOrCreatePseudonym (st : MapperState) (entityText entityType createdAt : String) :
    String × MapperState :=
  let key := mappingKey entityText entityType
  match dget st.mappings key with
  | some m => (m.pseudonym, st)
  | none =>
    let newCounter := counterGet st.typeCounters entityType + 1
    let p := generatePseudonym entityType newCounter
    let m : EntityMapping :=
      { original := entityText, pseudonym := p, entityType := entityType,
        sessionId := st.sessionId, createdAt := createdAt }
    (p, { st with
          mappings := st.mappings ++ [(key, m)],
          typeCounters := dinsert st.typeCounters entityType newCounter,
          reverseMappings := dinsert st.reverseMappings p entityText })

/-- `get_statistics`; `by_type` is the count-by-type table viewed as a
function, `unique_entities` is `len(set(originals))`. -/
structure MappingStatistics where
  totalEntities : Nat
  byType : String → Nat
  uniqueEntities : Nat
  sessionId : String

/-- `EntityMapper.get_statistics`. -/
def getStatistics (st : MapperState) : MappingStatistics :=
  { totalEntities := st.mappings.length,
    byType := fun t => (st.mappings.filter (fun p => p.2.entityType == t)).length,
    uniqueEntities := ((st.mappings.map (fun p => p.2.original)).dedup).length,
    sessionId := st.sessionId }

/-- `clear_mappings`: clears mappings, reverse mappings and counters. -/
def clearMappings (st : MapperState) : MapperState :=
  { st with mappings := [], typeCounters := [], reverseMappings := [] }

/-- One `"mappings"` row of the export document. -/
structure MappingRow where
  original : String
  pseudonym : String
  entityType : String
  createdAt : String
deriving DecidableEq, Repr

/-- The JSON document produced by `export_mappings` and consumed by
`import_mappings` (`session_id` is optional on import). -/
structure MappingsDocument where
  sessionId : Option String
  mappings : List MappingRow
  statsTotalEntities : Nat
  statsByType : List (String × Int)
  statsUniqueEntities : Nat
deriving DecidableEq, Repr

/-- The export row of a stored mapping. -/
def rowOfMapping (m : EntityMapping) : MappingRow :=
  { original := m.original, pseudonym := m.pseudonym,
    entityType := m.entityType, createdAt := m.createdAt }

/-- The `EntityMapping` rebuilt from an imported row under session `sid`. -/
def mappingOfRow (sid : String) (r : MappingRow) : EntityMapping :=
  { original := r.original, pseudonym := r.pseudonym,
    entityType := r.entityType, sessionId := sid, createdAt := r.createdAt }

/-- `export_mappings` (the `"by_type"` statistic is `dict(self._type_counters)`). -/
def exportMappings (st : MapperState) : MappingsDocument :=
  { sessionId := some st.sessionId,
    mappings := st.mappings.map (fun p => rowOfMapping p.2),
    statsTotalEntities := st.mappings.length,
    statsByType := st.typeCounters,
    statsUniqueEntities := ((st.mappings.map (fun p => p.2.original)).dedup).length }

/-- Counter-rebuild step of `import_mappings`: take the max of the numeric
suffix, or fall back to an increment when `int(...)` raises. -/
def importCounterStep (cs : List (String × Int)) (m : EntityMapping) :
    List (String × Int) :=
  match pyInt? (lastSegment m.pseudonym) with
  | some k => dinsert cs m.entityType (max (counterGet cs m.entityType) k)
  | none => dinsert cs m.entityType (counterGet cs m.entityType + 1)

/-- `import_mappings` on a structurally well-formed document (every row has
its required fields, so the Python `try` body cannot raise).  `freshSid`
stands for the `str(uuid.uuid4())` used when the document has no
`"session_id"`.  Existing state is cleared first. -/
def importMappings (freshSid : String) (doc : MappingsDocument) (_st : MapperState) :
    MapperState :=
  let sid := doc.sessionId.getD freshSid
  let maps := doc.mappings.foldl
    (fun acc r => dinsert acc (mappingKey r.original r.entityType)
      (mappingOfRow sid r)) []
  let rev := doc.mappings.foldl (fun acc r => dinsert acc r.pseudonym r.original) []
  { sessionId := sid,
    mappings := maps,
    typeCounters := maps.foldl (fun cs p => importCounterStep cs p.2) [],
    reverseMappings := rev }

/-! ## MappingSessionManager (`entity_mapping.py`) -/

/-- `MappingSessionManager._sessions`. -/
def SessionStore : Type := List (String × MapperState)

/-- `get_or_create_session`; `freshSid` stands for the generated UUID used
when no session id is supplied.  Returns the session id actually used, the
mapper, and the (possibly extended) store. -/
def getOrCreateSession (store : SessionStore) (sessionId? : Option String)
    (freshSid : String) : String × MapperState × SessionStore :=
  let sid := sessionId?.getD freshSid
  match dget store sid with
  | some m => (sid, m, store)
  | none => (sid, freshMapper sid, dinsert store sid (freshMapper sid))

/-- `list_sessions`. -/
def listSessions (store : SessionStore) : List String := store.map (fun p => p.1)

/-! ## Entities and the cross-detector merge (`pseudonymizer.py`, `ner_pipeline.py`) -/

/-- A detected span: the common shape of `ner_pipeline.Entity` and
`extended_patterns.ExtendedEntity` (`text`, `label`, `start`, `end`,
`confidence`); `end` is spelled `stop` (Lean keyword). -/
structure Entity where
  text : String
  label : String
  start : Nat
  stop : Nat
  conf : Int
deriving DecidableEq, Repr

/-- `NERPipeline.filter_entities_by_confidence`: keep
`entity.confidence >= min_confidence`. -/
def filterEntitiesByConfidence (entities : List Entity) (minConfidence : Int) :
    List Entity :=
  entities.filter (fun e => minConfidence ≤ e.conf)

/-- The overlap test of `_combine_entities`:
`not (end <= existing_start or start >= existing_end)` for the new entity `e`
against the stored entity `x`. -/
def spansOverlap (e x : Entity) : Bool := !(e.stop ≤ x.start || x.stop ≤ e.start)

/-- The replacement test of `_combine_entities`: the new entity wins on
strictly higher confidence, or on equal confidence and strictly greater text
length. -/
def keepsNew (e x : Entity) : Bool :=
  x.conf < e.conf || (e.conf == x.conf && x.text.length < e.text.length)

/-- The inner loop of `_combine_entities`: scan `filtered_entities` for the
first stored entity overlapping `e`; replace it when `keepsNew`, drop `e`
otherwise; append `e` at the end when nothing overlaps. -/
def insertEntity (e : Entity) : List Entity → List Entity
  | [] => [e]
  | x :: xs =>
    if spansOverlap e x then (if keepsNew e x then e :: xs else x :: xs)
    else x :: insertEntity e xs

/-- Sort key of `all_entities.sort(key=lambda x: x[2])`. -/
def entityStartLE (a b : Entity) : Prop := a.start ≤ b.start

instance : DecidableRel entityStartLE :=
  fun a b => inferInstanceAs (Decidable (a.start ≤ b.start))

instance : IsTotal Entity entityStartLE := ⟨fun a b => Nat.le_total a.start b.start⟩

instance : IsTrans Entity entityStartLE := ⟨fun _ _ _ h h' => Nat.le_trans h h'⟩

/-- `TextPseudonymizer._combine_entities` before the final projection:
concatenate the NER and pattern entities, sort by start position (Python's
`list.sort` is stable; `insertionSort` with a `≤` key is a stable sort, so
the two agree), then run the overlap-resolution loop. -/
def combineEntities (nerEntities extendedEntities : List Entity) : List Entity :=
  (List.insertionSort entityStartLE (nerEntities ++ extendedEntities)).foldl
    (fun acc e => insertEntity e acc) []

/-- `_combine_entities`: the returned `(text, label, start, end)` tuples. -/
def combineEntitiesFinal (nerEntities extendedEntities : List Entity) :
    List (String × String × Nat × Nat) :=
  (combineEntities nerEntities extendedEntities).map
    (fun e => (e.text, e.label, e.start, e.stop))

/-! ## Extended pattern matcher (`extended_patterns.py`) -/

/-- A raw regex match (`match.group()`, `match.start()`, `match.end()`);
the regex engine itself is external. -/
structure PatternMatch where
  text : String
  start : Nat
  stop : Nat
deriving DecidableEq, Repr

/-- `_luhn_check`: reject non-digit strings (Python `"".isdigit()` is
`False`), double every second digit from the right starting at the
second-to-last, subtract 9 from two-digit products, and require the total
plus the last digit to be divisible by 10. -/
def luhnCheck (cardNumber : String) : Bool :=
  let ds := cardNumber.data
  if ds.isEmpty || !ds.all Char.isDigit then false
  else
    let digits := ds.map (fun c => c.toNat - '0'.toNat)
    let n := digits.length
    let checksum := ((digits.take (n - 1)).enum.map (fun p =>
      if (n - p.1) % 2 == 0 then
        (if 9 < 2 * p.2 then 2 * p.2 - 9 else 2 * p.2)
      else p.2)).sum
    (checksum + digits.getLastD 0) % 10 == 0

/-- `text.replace("-", "").replace(" ", "")`. -/
def stripCardSeparators (s : String) : String :=
  ⟨s.data.filter (fun c => c ≠ '-' ∧ c ≠ ' ')⟩

/-- `text[:2].isalpha()`: true when the first `min 2 (len text)` characters
exist and are alphabetic (`"".isalpha()` is `False`). -/
def firstTwoAlpha (s : String) : Bool :=
  match s.data with
  | [] => false
  | [a] => a.isAlpha
  | a :: b :: _ => a.isAlpha && b.isAlpha

/-- `_validate_pattern_match`. -/
def validatePatternMatch (text : String) (entityType : String) : Bool :=
  if entityType == "IBAN" then
    decide (15 ≤ text.data.length) && decide (text.data.length ≤ 34) && firstTwoAlpha text
  else if entityType == "CREDIT_CARD" then
    luhnCheck (stripCardSeparators text)
  else if entityType == "TAX_ID" then
    decide (8 ≤ (text.data.filter (fun c => c ≠ '/')).length)
  else if entityType == "SOCIAL_SECURITY" then
    let clean := text.data.filter (fun c => c ≠ '-')
    decide (clean.length = 9) && (!clean.isEmpty && clean.all Char.isDigit)
  else true

/-- The entity types of `self._patterns`, in dict insertion order. -/
def patternEntityTypes : List String :=
  ["ID", "IBAN", "LICENSE", "CREDIT_CARD", "TAX_ID", "SOCIAL_SECURITY"]

/-- `_extract_pattern_entities`, parameterized over the regex engine:
`matchesFor t` lists the matches of all patterns of type `t` against the
input text, in pattern order.  A match becomes an entity (confidence 0.8)
only when `_validate_pattern_match` accepts it. -/
def extractPatternEntities (matchesFor : String → List PatternMatch) : List Entity :=
  patternEntityTypes.foldl
    (fun acc ty => acc ++ (matchesFor ty).filterMap (fun m =>
      if validatePatternMatch m.text ty then
        some { text := m.text, label := ty, start := m.start, stop := m.stop, conf := 80 }
      else none))
    []

/-- `_extract_dates`, parameterized over `dateparser.parse` (the only field
of the parsed datetime the code reads is `.year`, so the parser is modelled
as `String → Option Int`; a parse failure or exception is `none`).  The
matched text is stripped, parsed, and accepted (confidence 0.85) only when
`parsed_date.year > 1900 and parsed_date.year < 2100`. -/
def extractDates (parseYear : String → Option Int) (dateMatches : List PatternMatch) :
    List Entity :=
  dateMatches.filterMap (fun m =>
    let dateText := pyStrip m.text
    match parseYear dateText with
    | some y =>
      if 1900 < y ∧ y < 2100 then
        some { text := dateText, label := "DATE", start := m.start, stop := m.stop,
               conf := 85 }
      else none
    | none => none)

/-! ## Orchestrator (`pseudonymizer.py`) -/

/-- The `Union[str, List[str]]` input/output shape of `pseudonymize_text`. -/
inductive TextInput where
  | single (s : String)
  | batch (texts : List String)
deriving DecidableEq, Repr

/-- `PseudonymizationResult`. -/
structure PseudonymizationResult where
  pseudonymized : TextInput
  detectedLanguage : String
  entityCount : Nat
  sessionId : String
  confidence : Int
deriving DecidableEq, Repr

/-- `result_text[:start_pos] + pseudonym + result_text[end_pos:]` (Python
slices clamp out-of-range indices, as `take`/`drop` do). -/
def spliceString (t : String) (startPos endPos : Nat) (p : String) : String :=
  ⟨t.data.take startPos ++ p.data ++ t.data.drop endPos⟩

/-- Sort key of `sorted(entities, key=lambda x: x[2], reverse=True)` on the
`(text, label, start, end)` tuples: descending start position. -/
def quadStartGE (a b : String × String × Nat × Nat) : Prop := b.2.2.1 ≤ a.2.2.1

instance : DecidableRel quadStartGE :=
  fun a b => inferInstanceAs (Decidable (b.2.2.1 ≤ a.2.2.1))

instance : IsTotal (String × String × Nat × Nat) quadStartGE :=
  ⟨fun a b => Nat.le_total b.2.2.1 a.2.2.1⟩

instance : IsTrans (String × String × Nat × Nat) quadStartGE :=
  ⟨fun _ _ _ h h' => Nat.le_trans h' h⟩

/-- The casing adjustment of `_replace_entities_in_text` under
`preserve_formatting`. -/
def adjustCasing (entityText pseudonym : String) : String :=
  if pyIsUpperStr entityText then pyUpper pseudonym
  else if pyIsTitleStr entityText then pyTitle pseudonym
  else if pyIsLowerStr entityText then pyLower pseudonym
  else pseudonym

/-- `TextPseudonymizer._replace_entities_in_text`: sort the spans by
descending start (stable, like Python's `sorted`), then for each span get or
create its pseudonym, optionally mirror the original casing class, and splice
the pseudonym in by offset. -/
def replaceEntitiesInText (text : String) (entities : List (String × String × Nat × Nat))
    (st : MapperState) (preserveFormatting : Bool) : String × MapperState :=
  if entities.isEmpty then (text, st)
  else
    (List.insertionSort quadStartGE entities).foldl
      (fun acc ent =>
        let p := getOrCreatePseudonym acc.2 ent.1 ent.2.1 ""
        let pseudonym := if preserveFormatting then adjustCasing ent.1 p.1 else p.1
        (spliceString acc.1 ent.2.2.1 ent.2.2.2 pseudonym, p.2))
      (text, st)

/-- The per-text loop of `pseudonymize_text`: whitespace-only texts
contribute `""` without invoking the detectors; otherwise NER entities are
extracted and confidence-filtered, pattern entities extracted, combined, and
replaced, threading the session mapper left to right.  Returns the
pseudonymized texts (in input order), the total entity count, and the
updated mapper. -/
def processTexts (nerExtract patternExtract : String → String → List Entity)
    (detLang : String) (minConfidence : Int) (preserveFormatting : Bool) :
    MapperState → List String → List String × Nat × MapperState
  | st, [] => ([], 0, st)
  | st, t :: ts =>
    if pyStrip t = "" then
      let rest := processTexts nerExtract patternExtract detLang minConfidence
        preserveFormatting st ts
      ("" :: rest.1, rest.2)
    else
      let nerEntities :=
        filterEntitiesByConfidence (nerExtract t detLang) minConfidence
      let extendedEntities := patternExtract t detLang
      let allEntities := combineEntitiesFinal nerEntities extendedEntities
      let replaced := replaceEntitiesInText t allEntities st preserveFormatting
      let rest := processTexts nerExtract patternExtract detLang minConfidence
        preserveFormatting replaced.2 ts
      (replaced.1 :: rest.1, allEntities.length + rest.2.1, rest.2.2)

/-- `TextPseudonymizer.pseudonymize_text`, parameterized over the external
collaborators: `nerExtract text lang` models `NERPipeline.extract_entities`,
`patternExtract text lang` models
`ExtendedPatternMatcher.extract_extended_entities`, `detect` models
`LanguageDetector.detect_language`, and `freshSid` the UUID generated when no
session id is supplied. -/
def pseudonymizeText (nerExtract patternExtract : String → String → List Entity)
    (detect : String → String × Int) (store : SessionStore) (text : TextInput)
    (language : String) (preserveFormatting : Bool) (sessionId? : Option String)
    (minConfidence : Int) (freshSid : String) :
    PseudonymizationResult × SessionStore :=
  let isSingle := match text with | .single _ => true | .batch _ => false
  let texts := match text with | .single s => [s] | .batch l => l
  if texts.isEmpty || texts.all (fun t => pyStrip t = "") then
    ({ pseudonymized := if isSingle then .single "" else .batch [],
       detectedLanguage := "en", entityCount := 0,
       sessionId := sessionId?.getD "", confidence := 0 }, store)
  else
    let s₁ := getOrCreateSession store sessionId? freshSid
    let langPair :=
      if language == "auto" then
        detect ((texts.find? (fun t => pyStrip t ≠ "")).getD "")
      else (language, 100)
    let processed := processTexts nerExtract patternExtract langPair.1 minConfidence
      preserveFormatting s₁.2.1 texts
    ({ pseudonymized :=
         if isSingle then .single (processed.1.headD "") else .batch processed.1,
       detectedLanguage := langPair.1, entityCount := processed.2.1,
       sessionId := processed.2.2.sessionId, confidence := langPair.2 },
     dinsert s₁.2.2 s₁.1 processed.2.2)

/-- `TextPseudonymizer.import_session_mappings`: fetch or create the session
(`freshSid` models the UUID used when no session id is given), then run the
mapper's `import_mappings` in place (`freshImportSid` models the UUID used
when the document lacks a session id).  On a structurally well-formed
document the import succeeds, so the returned flag is `true`. -/
def importSessionMappings (store : SessionStore) (doc : MappingsDocument)
    (sessionId? : Option String) (freshSid freshImportSid : String) :
    Bool × SessionStore :=
  let s₁ := getOrCreateSession store sessionId? freshSid
  (true, dinsert s₁.2.2 s₁.1 (importMappings freshImportSid doc s₁.2.1))

/-! ## Association-list lemmas -/

theorem dget_append_left {β : Type} {l₁ : List (String × β)} (l₂ : List (String × β))
    {k : String} {v : β} (h : dget l₁ k = some v) : dget (l₁ ++ l₂) k = some v := by
  induction l₁ with
  | nil => simp [dget] at h
  | cons p rest ih =>
    by_cases hk : p.1 == k
    · simpa [dget, List.find?, hk] using h
    · simp only [dget, List.cons_append, List.find?, hk] at h ⊢
      exact ih h

theorem dget_append_right {β : Type} {l₁ l₂ : List (String × β)} {k : String}
    (h : dget l₁ k = none) : dget (l₁ ++ l₂) k = dget l₂ k := by
  induction l₁ with
  | nil => simp
  | cons p rest ih =>
    by_cases hk : p.1 == k
    · simp [dget, List.find?, hk] at h
    · simp only [dget, List.find?, hk] at h
      simp only [dget, List.cons_append, List.find?, hk]
      exact ih h

theorem dget_singleton_self {β : Type} (k : String) (v : β) :
    dget [(k, v)] k = some v := by
  simp [dget, List.find?]

theorem dget_singleton_ne {β : Type} {k k' : String} (v : β) (h : k' ≠ k) :
    dget [(k, v)] k' = none := by
  have hb : (k == k') = false := beq_eq_false_iff_ne.mpr (fun e => h e.symm)
  simp [dget, List.find?, hb]

theorem dget_dinsert_self {β : Type} (l : List (String × β)) (k : String) (v : β) :
    dget (dinsert l k v) k = some v := by
  induction l with
  | nil => simp [dinsert, dget, List.find?]
  | cons p rest ih =>
    by_cases hk : p.1 == k
    · simp [dinsert, hk, dget, List.find?]
    · simp only [dinsert, hk, if_false, dget, List.find?]
      simpa [dget] using ih

theorem dget_dinsert_ne {β : Type} (l : List (String × β)) {k k' : String} (v : β)
    (h : k' ≠ k) : dget (dinsert l k v) k' = dget l k' := by
  induction l with
  | nil =>
    have hb : (k == k') = false := beq_eq_false_iff_ne.mpr (fun e => h e.symm)
    simp [dinsert, dget, List.find?, hb]
  | cons p rest ih =>
    by_cases hk : p.1 == k
    · have hpk : p.1 = k := by simpa [beq_iff_eq] using hk
      have hb : (k == k') = false := beq_eq_false_iff_ne.mpr (fun e => h e.symm)
      have hb' : (p.1 == k') = false := by simpa [hpk] using hb
      simp [dinsert, hk, dget, List.find?, hb, hb']
    · by_cases hk' : p.1 == k'
      · simp [dinsert, hk, dget, List.find?, hk']
      · simp only [dinsert, hk, if_false, dget, List.find?, hk']
        simpa [dget] using ih

theorem dinsert_of_dget_none {β : Type} {l : List (String × β)} {k : String}
    (v : β) (h : dget l k = none) : dinsert l k v = l ++ [(k, v)] := by
  induction l with
  | nil => simp [dinsert]
  | cons p rest ih =>
    by_cases hk : p.1 == k
    · simp [dget, List.find?, hk] at h
    · simp only [dget, List.find?, hk] at h
      simp [dinsert, hk, ih h]

theorem dinsert_keys_of_dget_some {β : Type} {l : List (String × β)} {k : String}
    {v : β} (v' : β) (h : dget l k = some v) :
    (dinsert l k v').map (fun p => p.1) = l.map (fun p => p.1) := by
  induction l with
  | nil => simp [dget] at h
  | cons p rest ih =>
    by_cases hk : p.1 == k
    · have hpk : p.1 = k := by simpa [beq_iff_eq] using hk
      simp [dinsert, hk, hpk]
    · simp only [dget, List.find?, hk] at h
      simp [dinsert, hk, ih h]

/-! ## C1: repeated lookups are stable and create nothing -/

/-- C1: for every session state, calling `get_or_create_pseudonym` twice
with the same original entity string and the same entity type returns the
same pseudonym both times, and the second call leaves the mapper state
(in particular its mapping table) unchanged — it creates no new mapping.
This covers `pseudonymize_text` with a fixed `session_id`, which resolves
every span through this method on the session's mapper. -/
theorem c1_getOrCreatePseudonym_second_call_stable
    (st : MapperState) (entityText entityType ca₁ ca₂ : String) :
    (getOrCreatePseudonym (getOrCreatePseudonym st entityText entityType ca₁).2
        entityText entityType ca₂).1
      = (getOrCreatePseudonym st entityText entityType ca₁).1 ∧
    (getOrCreatePseudonym (getOrCreatePseudonym st entityText entityType ca₁).2
        entityText entityType ca₂).2
      = (getOrCreatePseudonym st entityText entityType ca₁).2 := by
  cases h : dget st.mappings (mappingKey entityText entityType) with
  | some m =>
    constructor <;> simp [getOrCreatePseudonym, h]
  | none =>
    have h₂ : dget (st.mappings ++
        [(mappingKey entityText entityType,
          { original := entityText,
            pseudonym := generatePseudonym entityType
              (counterGet st.typeCounters entityType + 1),
            entityType := entityType, sessionId := st.sessionId,
            createdAt := ca₁ : EntityMapping })])
        (mappingKey entityText entityType) = some
          { original := entityText,
            pseudonym := generatePseudonym entityType
              (counterGet st.typeCounters entityType + 1),
            entityType := entityType, sessionId := st.sessionId,
            createdAt := ca₁ } := by
      rw [dget_append_right h]
      exact dget_singleton_self _ _
    constructor <;> simp [getOrCreatePseudonym, h, h₂]

/-! ## C2: the cross-detector merge invariant -/

/-- Separation of two spans: the first ends at or before the second starts. -/
def entSep (a b : Entity) : Prop := a.stop ≤ b.start

theorem spansOverlap_iff {e x : Entity} :
    spansOverlap e x = true ↔ x.start < e.stop ∧ e.start < x.stop := by
  simp [spansOverlap, Nat.not_le, and_comm]

theorem spansOverlap_false {e x : Entity} (h : ¬ spansOverlap e x = true) :
    e.stop ≤ x.start ∨ x.stop ≤ e.start := by
  by_contra hc
  push_neg at hc
  exact h (spansOverlap_iff.mpr ⟨hc.1, hc.2⟩)

theorem insertEntity_mem {e x : Entity} : ∀ {acc : List Entity},
    x ∈ insertEntity e acc → x ∈ acc ∨ x = e := by
  intro acc
  induction acc with
  | nil => intro h; simp [insertEntity] at h; exact Or.inr h
  | cons y ys ih =>
    intro h
    simp only [insertEntity] at h
    by_cases hov : spansOverlap e y
    · rw [if_pos hov] at h
      by_cases hk : keepsNew e y
      · rw [if_pos hk] at h
        rcases List.mem_cons.mp h with h | h
        · exact Or.inr h
        · exact Or.inl (List.mem_cons_of_mem _ h)
      · rw [if_neg hk] at h
        exact Or.inl h
    · rw [if_neg hov] at h
      rcases List.mem_cons.mp h with h | h
      · exact Or.inl (h ▸ List.mem_cons_self y ys)
      · rcases ih h with h' | h'
        · exact Or.inl (List.mem_cons_of_mem _ h')
        · exact Or.inr h'

theorem insertEntity_sep_of_not_overlap {e x : Entity} (hle : x.start ≤ e.start)
    (he : e.start < e.stop) (hov : ¬ spansOverlap e x = true) : entSep x e := by
  rcases spansOverlap_false hov with h | h
  · exact absurd h (by omega)
  · exact h

theorem insertEntity_chain (e : Entity) : ∀ (acc : List Entity),
    List.Chain' entSep acc → (∀ x ∈ acc, x.start ≤ e.start) →
    (e.start < e.stop) →
    List.Chain' entSep (insertEntity e acc) := by
  intro acc
  induction acc with
  | nil => intro _ _ _; simp [insertEntity]
  | cons x xs ih =>
    intro hch hle he
    simp only [insertEntity]
    by_cases hov : spansOverlap e x
    · rw [if_pos hov]
      cases xs with
      | nil =>
        by_cases hk : keepsNew e x <;> simp [hk]
      | cons y ys =>
        exfalso
        have h1 : e.start < x.stop := (spansOverlap_iff.mp hov).2
        have h2 : entSep x y := (List.chain'_cons.mp hch).1
        have h3 : y.start ≤ e.start := hle y (by simp)
        unfold entSep at h2
        omega
    · rw [if_neg hov]
      have hsx : entSep x e :=
        insertEntity_sep_of_not_overlap (hle x (by simp)) he hov
      have hch' : List.Chain' entSep xs := hch.tail
      have ihc : List.Chain' entSep (insertEntity e xs) :=
        ih hch' (fun z hz => hle z (List.mem_cons_of_mem _ hz)) he
      apply List.chain'_cons'.mpr
      refine ⟨?_, ihc⟩
      intro b hb
      cases xs with
      | nil =>
        simp [insertEntity] at hb
        exact hb ▸ hsx
      | cons y ys =>
        have hxy : entSep x y := (List.chain'_cons.mp hch).1
        simp only [insertEntity] at hb
        by_cases h1 : spansOverlap e y
        · rw [if_pos h1] at hb
          by_cases h2 : keepsNew e y
          · rw [if_pos h2] at hb
            simp at hb
            exact hb ▸ hsx
          · rw [if_neg h2] at hb
            simp at hb
            exact hb ▸ hxy
        · rw [if_neg h1] at hb
          simp at hb
          exact hb ▸ hxy

theorem foldl_insertEntity_invariant : ∀ (l acc : List Entity),
    List.Chain' entSep acc → (∀ x ∈ acc, x.start < x.stop) →
    (∀ x ∈ acc, ∀ e ∈ l, x.start ≤ e.start) →
    (∀ e ∈ l, e.start < e.stop) →
    l.Pairwise entityStartLE →
    List.Chain' entSep (l.foldl (fun a e => insertEntity e a) acc) ∧
      (∀ x ∈ l.foldl (fun a e => insertEntity e a) acc, x.start < x.stop) := by
  intro l
  induction l with
  | nil => intro acc hch hwf _ _ _; exact ⟨hch, hwf⟩
  | cons e rest ih =>
    intro acc hch hwf hle hwl hpw
    have he : e.start < e.stop := hwl e (by simp)
    have hch₁ : List.Chain' entSep (insertEntity e acc) :=
      insertEntity_chain e acc hch (fun x hx => hle x hx e (by simp)) he
    have hwf₁ : ∀ x ∈ insertEntity e acc, x.start < x.stop := by
      intro x hx
      rcases insertEntity_mem hx with h | h
      · exact hwf x h
      · exact h ▸ he
    have hle₁ : ∀ x ∈ insertEntity e acc, ∀ f ∈ rest, x.start ≤ f.start := by
      intro x hx f hf
      rcases insertEntity_mem hx with h | h
      · exact hle x h f (List.mem_cons_of_mem _ hf)
      · exact h ▸ (List.rel_of_pairwise_cons hpw hf)
    have hwl₁ : ∀ f ∈ rest, f.start < f.stop :=
      fun f hf => hwl f (List.mem_cons_of_mem _ hf)
    simpa using ih (insertEntity e acc) hch₁ hwf₁ hle₁ hwl₁ hpw.of_cons

theorem chain'_entSep_head : ∀ {a : Entity} {l : List Entity},
    List.Chain' entSep (a :: l) → (∀ x ∈ a :: l, x.start < x.stop) →
    ∀ b ∈ l, a.stop ≤ b.start := by
  intro a l
  induction l generalizing a with
  | nil => intro _ _ b hb; simp at hb
  | cons c cs ih =>
    intro hch hwf b hb
    have hac : entSep a c := (List.chain'_cons.mp hch).1
    rcases List.mem_cons.mp hb with h | h
    · exact h ▸ hac
    · have hc : a.stop ≤ c.start := hac
      have hcs : c.start < c.stop := hwf c (by simp)
      have := ih (List.chain'_cons.mp hch).2
        (fun x hx => hwf x (List.mem_cons_of_mem _ hx)) b h
      omega

theorem chain'_entSep_pairwise : ∀ {l : List Entity},
    List.Chain' entSep l → (∀ x ∈ l, x.start < x.stop) →
    l.Pairwise (fun a b => a.start < b.start ∧ a.stop ≤ b.start) := by
  intro l
  induction l with
  | nil => intro _ _; exact List.Pairwise.nil
  | cons a as ih =>
    intro hch hwf
    refine List.pairwise_cons.mpr ⟨?_, ih hch.tail
      (fun x hx => hwf x (List.mem_cons_of_mem _ hx))⟩
    intro b hb
    have hsep : a.stop ≤ b.start := chain'_entSep_head hch hwf b hb
    have ha : a.start < a.stop := hwf a (by simp)
    exact ⟨by omega, hsep⟩

/-- C2 (amended): for every pair of detector outputs whose spans are
non-degenerate (`start < end`, as every regex/NER span is), the merged list
produced by `_combine_entities` is strictly ordered by start offset and
non-overlapping (each span ends at or before the next begins).  The
order-independence half of the original claim is refuted by
`c2_counterexample`: on a confidence-and-length tie the span kept depends on
the input order. -/
theorem c2_combineEntities_nonoverlapping_sorted
    (nerEntities extendedEntities : List Entity)
    (h : ∀ s ∈ nerEntities ++ extendedEntities, s.start < s.stop) :
    (combineEntities nerEntities extendedEntities).Pairwise
      (fun a b => a.start < b.start ∧ a.stop ≤ b.start) := by
  unfold combineEntities
  set sorted := List.insertionSort entityStartLE (nerEntities ++ extendedEntities)
    with hs
  have hperm : List.Perm sorted (nerEntities ++ extendedEntities) :=
    List.perm_insertionSort entityStartLE _
  have hsorted : sorted.Pairwise entityStartLE :=
    List.sorted_insertionSort entityStartLE _
  have hwl : ∀ e ∈ sorted, e.start < e.stop := fun e he => h e (hperm.mem_iff.mp he)
  have hinv := foldl_insertEntity_invariant sorted [] (by simp) (by simp)
    (by simp) hwl hsorted
  exact chain'_entSep_pairwise hinv.1 hinv.2

/-- Witness for `c2_combineEntities_nonoverlapping_sorted` at a concrete
input: two overlapping spans of different confidence. -/
theorem c2_combineEntities_nonoverlapping_sorted_witness :
    (∀ s ∈ ([⟨"Max Mustermann", "PER", 0, 14, 90⟩] ++
        [⟨"Mustermann", "ID", 4, 14, 80⟩] : List Entity), s.start < s.stop) ∧
    (combineEntities [⟨"Max Mustermann", "PER", 0, 14, 90⟩]
        [⟨"Mustermann", "ID", 4, 14, 80⟩]).Pairwise
      (fun a b => a.start < b.start ∧ a.stop ≤ b.start) :=
  ⟨by decide, c2_combineEntities_nonoverlapping_sorted _ _ (by decide)⟩

/-- C2 (counterexample to order-independence): two spans over the same
range with equal confidence and equal text length but different labels —
one coming from the NER detector, one from the pattern detector.  Swapping
the detector-output order changes which span the merge keeps, so the final
span set is not permutation-invariant. -/
theorem c2_counterexample_order_dependent :
    combineEntitiesFinal [⟨"Meier", "PER", 0, 5, 90⟩] [⟨"Meier", "LOC", 0, 5, 90⟩] ≠
    combineEntitiesFinal [⟨"Meier", "LOC", 0, 5, 90⟩] [⟨"Meier", "PER", 0, 5, 90⟩] := by
  decide

/-! ## C6: out-of-range `min_confidence` -/

/-- C6 (counterexample): `pseudonymize_text` with `min_confidence = 1.5`
(here 150 hundredths) is *not* clamped to 1.0: a recognizer span with
confidence exactly 1.0 (100) is filtered out rather than kept — the call
proceeds without error, but no entity survives and the text is returned
unchanged. -/
theorem c6_counterexample_full_confidence_span_dropped :
    (pseudonymizeText
        (fun _ _ => [⟨"Bob", "PER", 0, 3, 100⟩]) (fun _ _ => [])
        (fun _ => ("en", 100)) [] (TextInput.single "Bob") "en" true
        (some "c6-session") 150 "c6-fresh").1.pseudonymized
      = TextInput.single "Bob" ∧
    filterEntitiesByConfidence [⟨"Bob", "PER", 0, 3, 100⟩] 150 ≠
      [⟨"Bob", "PER", 0, 3, 100⟩] := by
  constructor <;> decide

/-- C6 (amended): `filter_entities_by_confidence` applies the raw threshold
with no clamping: with `min_confidence = 1.5` every entity list whose
confidences are at most 1.0 — which covers every recognizer span, including
those at exactly 1.0 — is filtered to the empty list.  The call itself is
total (nothing raises). -/
theorem c6_min_confidence_not_clamped (entities : List Entity)
    (h : ∀ e ∈ entities, e.conf ≤ 100) :
    filterEntitiesByConfidence entities 150 = [] := by
  induction entities with
  | nil => rfl
  | cons e rest ih =>
    have he : e.conf ≤ 100 := h e (by simp)
    have : ¬ ((150 : Int) ≤ e.conf) := by omega
    simp only [filterEntitiesByConfidence, List.filter] at ih ⊢
    simp [this, ih (fun x hx => h x (List.mem_cons_of_mem _ hx))]

/-- Witness for `c6_min_confidence_not_clamped`. -/
theorem c6_min_confidence_not_clamped_witness :
    (∀ e ∈ ([⟨"Bob", "PER", 0, 3, 100⟩, ⟨"Berlin", "LOC", 8, 14, 80⟩] :
        List Entity), e.conf ≤ 100) ∧
    filterEntitiesByConfidence
      [⟨"Bob", "PER", 0, 3, 100⟩, ⟨"Berlin", "LOC", 8, 14, 80⟩] 150 = [] :=
  ⟨by decide, c6_min_confidence_not_clamped _ (by decide)⟩

/-! ## C8: the DATE year window -/

/-- C8 (counterexample): a date-shaped match whose parsed year is exactly
1900 is discarded, because the code requires `parsed_date.year > 1900`; the
claimed half-open window [1900, 2100) would have accepted it. -/
theorem c8_counterexample_year_1900_rejected :
    extractDates (fun _ => some 1900) [⟨"01.01.1900", 0, 10⟩] = [] := by
  decide

/-- C8 (amended): a date-shaped regex match is emitted as a DATE entity iff
the date-parsing library parses it and the parsed year lies strictly between
1900 and 2100 — the window is the open interval (1900, 2100): 1900 itself is
rejected, 1901 through 2099 are accepted, 2100 is rejected. -/
theorem c8_extractDates_year_window (parseYear : String → Option Int)
    (dateMatches : List PatternMatch) (e : Entity) :
    e ∈ extractDates parseYear dateMatches ↔
      ∃ m ∈ dateMatches, ∃ y : Int, parseYear (pyStrip m.text) = some y ∧
        1900 < y ∧ y < 2100 ∧
        e = ⟨pyStrip m.text, "DATE", m.start, m.stop, 85⟩ := by
  unfold extractDates
  rw [List.mem_filterMap]
  constructor
  · rintro ⟨m, hm, hf⟩
    refine ⟨m, hm, ?_⟩
    dsimp only at hf
    cases hp : parseYear (pyStrip m.text) with
    | none => rw [hp] at hf; exact absurd hf (by simp)
    | some y =>
      rw [hp] at hf
      by_cases hy : 1900 < y ∧ y < 2100
      · refine ⟨y, rfl, hy.1, hy.2, ?_⟩
        have h' : some (Entity.mk (pyStrip m.text) ("DATE") m.start m.stop 85)
            = some e := by simpa [hy.1, hy.2] using hf
        exact (Option.some_inj.mp h').symm
      · exfalso
        simp [hy] at hf
  · rintro ⟨m, hm, y, hp, h₁, h₂, he⟩
    refine ⟨m, hm, ?_⟩
    rw [he]
    simp [hp, h₁, h₂]

/-- Witness instantiating `c8_extractDates_year_window` at a concrete
accepted boundary year (1901). -/
theorem c8_extractDates_year_window_witness :
    (⟨"01.01.1901", "DATE", 0, 10, 85⟩ : Entity) ∈
      extractDates (fun _ => some 1901) [⟨"01.01.1901", 0, 10⟩] :=
  (c8_extractDates_year_window (fun _ => some 1901) [⟨"01.01.1901", 0, 10⟩]
    ⟨"01.01.1901", "DATE", 0, 10, 85⟩).mpr
    ⟨⟨"01.01.1901", 0, 10⟩, by decide, 1901, rfl, by decide, by decide, by decide⟩

/-! ## C9: CREDIT_CARD entities require a passing Luhn checksum -/

theorem validatePatternMatch_credit_card (text : String) :
    validatePatternMatch text ("CREDIT_CARD") = luhnCheck (stripCardSeparators text) := by
  rfl

theorem filter_credit_card_of_other_type (ty : String)
    (h : ty ≠ "CREDIT_CARD") (ms : List PatternMatch) :
    ((ms.filterMap (fun m =>
        if validatePatternMatch m.text ty then
          some { text := m.text, label := ty, start := m.start, stop := m.stop,
                 conf := 80 : Entity }
        else none)).filter (fun s => s.label == "CREDIT_CARD")) = [] := by
  induction ms with
  | nil => rfl
  | cons m rest ih =>
    by_cases hv : validatePatternMatch m.text ty
    · have hb : (ty == "CREDIT_CARD") = false := beq_eq_false_iff_ne.mpr h
      simp only [List.filterMap_cons, hv, if_pos]
      simp [List.filter, hb, ih]
    · simp only [List.filterMap_cons, hv, if_neg, ih]
      simp [ih]

theorem filter_credit_card_of_credit_card (ms : List PatternMatch) :
    ((ms.filterMap (fun m =>
        if validatePatternMatch m.text ("CREDIT_CARD") then
          some { text := m.text, label := "CREDIT_CARD", start := m.start,
                 stop := m.stop, conf := 80 : Entity }
        else none)).filter (fun s => s.label == "CREDIT_CARD"))
      = ms.filterMap (fun m =>
        if luhnCheck (stripCardSeparators m.text) then
          some { text := m.text, label := "CREDIT_CARD", start := m.start,
                 stop := m.stop, conf := 80 : Entity }
        else none) := by
  induction ms with
  | nil => rfl
  | cons m rest ih =>
    by_cases hv : validatePatternMatch m.text ("CREDIT_CARD")
    · have hl : luhnCheck (stripCardSeparators m.text) = true := by
        rw [← validatePatternMatch_credit_card]; exact hv
      simp only [List.filterMap_cons, hv, if_pos, hl]
      simp [List.filter, ih]
    · have hl : ¬ luhnCheck (stripCardSeparators m.text) = true := by
        rw [← validatePatternMatch_credit_card]; exact hv
      simp only [List.filterMap_cons, hv, if_neg, hl]
      simp [hl, ih]

/-- C9: for every regex-engine output, the CREDIT_CARD entities emitted by
`_extract_pattern_entities` are exactly the credit-card-shaped matches whose
digit string (spaces and hyphens stripped) passes the Luhn checksum: a match
failing the checksum contributes zero CREDIT_CARD entities, and every
emitted CREDIT_CARD entity comes from a match that passes it. -/
theorem c9_credit_card_entities_iff_luhn
    (matchesFor : String → List PatternMatch) :
    ((extractPatternEntities matchesFor).filter (fun s => s.label == "CREDIT_CARD"))
      = (matchesFor ("CREDIT_CARD")).filterMap (fun m =>
          if luhnCheck (stripCardSeparators m.text) then
            some { text := m.text, label := "CREDIT_CARD", start := m.start,
                   stop := m.stop, conf := 80 : Entity }
          else none) := by
  simp only [extractPatternEntities, patternEntityTypes, List.foldl_cons,
    List.foldl_nil, List.nil_append]
  simp only [List.filter_append]
  rw [filter_credit_card_of_other_type ("ID") (by decide),
    filter_credit_card_of_other_type ("IBAN") (by decide),
    filter_credit_card_of_other_type ("LICENSE") (by decide),
    filter_credit_card_of_other_type ("TAX_ID") (by decide),
    filter_credit_card_of_other_type ("SOCIAL_SECURITY") (by decide),
    filter_credit_card_of_credit_card]
  simp

/-! ## C5: input/output shape of `pseudonymize_text` -/

theorem processTexts_length (nerExtract patternExtract : String → String → List Entity)
    (detLang : String) (minConfidence : Int) (preserveFormatting : Bool) :
    ∀ (ts : List String) (st : MapperState),
      (processTexts nerExtract patternExtract detLang minConfidence
        preserveFormatting st ts).1.length = ts.length := by
  intro ts
  induction ts with
  | nil => intro st; rfl
  | cons t rest ih =>
    intro st
    simp only [processTexts]
    by_cases h : pyStrip t = ""
    · simp [h, ih]
    · simp [h, ih]

theorem processTexts_whitespace_getD
    (nerExtract patternExtract : String → String → List Entity)
    (detLang : String) (minConfidence : Int) (preserveFormatting : Bool) :
    ∀ (ts : List String) (st : MapperState) (i : Nat), i < ts.length →
      pyStrip (ts.getD i "") = "" →
      (processTexts nerExtract patternExtract detLang minConfidence
        preserveFormatting st ts).1.getD i "" = "" := by
  intro ts
  induction ts with
  | nil => intro st i hi _; simp at hi
  | cons t rest ih =>
    intro st i hi hws
    cases i with
    | zero =>
      have hw : pyStrip t = "" := by simpa using hws
      simp only [processTexts]
      simp [hw]
    | succ j =>
      have hj : j < rest.length := by simpa using hi
      have hwj : pyStrip (rest.getD j "") = "" := by simpa using hws
      simp only [processTexts]
      by_cases h : pyStrip t = ""
      · simp only [h, if_pos]
        simpa using ih st j hj hwj
      · simp only [h, if_neg, ite_false]
        simpa using ih _ j hj hwj

/-- C5 (amended): `pseudonymize_text` maps a single string to a single
string.  A list input maps to a list output of the same length, in input
order, with whitespace-only elements mapped to `""` — *provided* the batch
contains at least one non-whitespace text.  A non-empty batch consisting
entirely of empty/whitespace-only texts instead takes the early-return path
and yields the empty list (`[]`), losing the length correspondence
(`c5_counterexample_all_whitespace_batch`); an empty batch yields `[]`,
which trivially has the same length. -/
theorem c5_pseudonymizeText_shape
    (nerExtract patternExtract : String → String → List Entity)
    (detect : String → String × Int) (store : SessionStore) (language : String)
    (preserveFormatting : Bool) (sessionId? : Option String)
    (minConfidence : Int) (freshSid : String) :
    (∀ s : String, ∃ out : String,
      (pseudonymizeText nerExtract patternExtract detect store
        (TextInput.single s) language preserveFormatting sessionId?
        minConfidence freshSid).1.pseudonymized = TextInput.single out) ∧
    (∀ ts : List String, (∃ t ∈ ts, pyStrip t ≠ "") →
      ∃ outs : List String,
        (pseudonymizeText nerExtract patternExtract detect store
          (TextInput.batch ts) language preserveFormatting sessionId?
          minConfidence freshSid).1.pseudonymized = TextInput.batch outs ∧
        outs.length = ts.length ∧
        (∀ i : Nat, i < ts.length → pyStrip (ts.getD i "") = "" →
          outs.getD i "" = "")) ∧
    (∀ ts : List String, (∀ t ∈ ts, pyStrip t = "") →
      (pseudonymizeText nerExtract patternExtract detect store
        (TextInput.batch ts) language preserveFormatting sessionId?
        minConfidence freshSid).1.pseudonymized = TextInput.batch []) := by
  refine ⟨?_, ?_, ?_⟩
  · intro s
    simp only [pseudonymizeText]
    by_cases h : ([s].isEmpty || [s].all fun t => decide (pyStrip t = "")) = true
    · rw [if_pos h]; exact ⟨"", rfl⟩
    · rw [if_neg h]; exact ⟨_, rfl⟩
  · intro ts hts
    obtain ⟨t₀, ht₀, hw₀⟩ := hts
    have hcond : ¬ ((ts.isEmpty || ts.all fun t => decide (pyStrip t = "")) = true) := by
      simp only [Bool.or_eq_true, List.isEmpty_eq_true, List.all_eq_true,
        decide_eq_true_eq]
      rintro (h | h)
      · subst h; simp at ht₀
      · exact hw₀ (h t₀ ht₀)
    simp only [pseudonymizeText]
    rw [if_neg hcond]
    exact ⟨_, rfl, processTexts_length _ _ _ _ _ ts _,
      fun i hi hws => processTexts_whitespace_getD _ _ _ _ _ ts _ i hi hws⟩
  · intro ts hts
    have hcond : (ts.isEmpty || ts.all fun t => decide (pyStrip t = "")) = true := by
      simp only [Bool.or_eq_true, List.all_eq_true, decide_eq_true_eq]
      exact Or.inr (fun t ht => hts t ht)
    simp only [pseudonymizeText]
    rw [if_pos hcond]
    rfl

/-- Witness for `c5_pseudonymizeText_shape`: a batch with a real text and a
whitespace-only text keeps length 2 and maps the whitespace slot to `""`. -/
theorem c5_pseudonymizeText_shape_witness :
    (∃ t ∈ (["Bob", "  "] : List String), pyStrip t ≠ "") ∧
    ∃ outs : List String,
      (pseudonymizeText (fun _ _ => []) (fun _ _ => []) (fun _ => ("en", 100)) []
        (TextInput.batch ["Bob", "  "]) "en" true (some "c5-session") 50
        "c5-fresh").1.pseudonymized = TextInput.batch outs ∧
      outs.length = (["Bob", "  "] : List String).length ∧
      (∀ i : Nat, i < (["Bob", "  "] : List String).length →
        pyStrip ((["Bob", "  "] : List String).getD i "") = "" →
        outs.getD i "" = "") :=
  ⟨⟨"Bob", by decide, by decide⟩,
    (c5_pseudonymizeText_shape (fun _ _ => []) (fun _ _ => [])
      (fun _ => ("en", 100)) [] "en" true (some "c5-session") 50
      "c5-fresh").2.1 ["Bob", "  "] ⟨"Bob", by decide, by decide⟩⟩

/-- C5 (counterexample): a non-empty batch whose texts are all
empty/whitespace-only returns the *empty* output list, not a list of the
input's length — the input `[""]` has length 1 but the output is `[]`. -/
theorem c5_counterexample_all_whitespace_batch :
    ¬ ∃ outs : List String,
      (pseudonymizeText (fun _ _ => []) (fun _ _ => []) (fun _ => ("en", 100)) []
        (TextInput.batch [""]) "en" true (some "c5-session") 50
        "c5-fresh").1.pseudonymized = TextInput.batch outs ∧
      outs.length = ([""] : List String).length := by
  rintro ⟨outs, h, hl⟩
  have hres : (pseudonymizeText (fun _ _ => []) (fun _ _ => [])
      (fun _ => ("en", 100)) [] (TextInput.batch [""]) "en" true
      (some "c5-session") 50 "c5-fresh").1.pseudonymized
      = TextInput.batch [] := by decide
  rw [hres] at h
  cases h
  simp at hl

/-! ## Mapper state invariants (C4, C7) -/

theorem counterGet_dinsert_self (l : List (String × Int)) (k : String) (v : Int) :
    counterGet (dinsert l k v) k = v := by
  simp [counterGet, dget_dinsert_self]

theorem counterGet_dinsert_ne (l : List (String × Int)) {k k' : String} (v : Int)
    (h : k' ≠ k) : counterGet (dinsert l k v) k' = counterGet l k' := by
  simp [counterGet, dget_dinsert_ne _ _ h]

/-- The type-`t` rows of the mapping table, in insertion order, carry
exactly the pseudonyms `<PREFIX(t)>_1 … <PREFIX(t)>_n`. -/
def typeRowsCanonical (st : MapperState) (t : String) : Prop :=
  ((st.mappings.filter (fun p => p.2.entityType == t)).map (fun p => p.2.pseudonym))
    = (List.range
        (st.mappings.filter (fun p => p.2.entityType == t)).length).map
      (fun i => generatePseudonym t (((i + 1 : Nat) : Int)))

/-- The running invariant of an `EntityMapper` that has only ever been
mutated through `get_or_create_pseudonym` and `clear_mappings`: every type
counter equals the number of stored rows of that type, and those rows carry
the canonical strictly increasing suffixes 1…n in insertion order. -/
def mapperInv (st : MapperState) : Prop :=
  ∀ t : String,
    counterGet st.typeCounters t
      = ((st.mappings.filter (fun p => p.2.entityType == t)).length : Int) ∧
    typeRowsCanonical st t

theorem mapperInv_fresh (sid : String) : mapperInv (freshMapper sid) := by
  intro t
  constructor
  · simp [freshMapper, counterGet, dget]
  · simp [freshMapper, typeRowsCanonical]

theorem mapperInv_clearMappings {st : MapperState} (_h : mapperInv st) :
    mapperInv (clearMappings st) := by
  intro t
  constructor
  · simp [clearMappings, counterGet, dget]
  · simp [clearMappings, typeRowsCanonical]

theorem mapperInv_getOrCreatePseudonym {st : MapperState} (h : mapperInv st)
    (entityText entityType ca : String) :
    mapperInv (getOrCreatePseudonym st entityText entityType ca).2 := by
  cases hk : dget st.mappings (mappingKey entityText entityType) with
  | some m =>
    intro t
    simpa [getOrCreatePseudonym, hk] using h t
  | none =>
    intro t
    have hcnt := (h entityType).1
    have hrows := (h entityType).2
    unfold typeRowsCanonical at hrows
    simp only [getOrCreatePseudonym, hk]
    by_cases hty : t = entityType
    · subst hty
      constructor
      · rw [counterGet_dinsert_self, List.filter_append]
        simp only [List.filter_cons, List.filter_nil, beq_self_eq_true, if_true,
          List.length_append, List.length_cons, List.length_nil]
        rw [hcnt]
        push_cast
        ring
      · unfold typeRowsCanonical
        simp only [List.filter_append, List.filter_cons, List.filter_nil,
          beq_self_eq_true, if_true, List.map_append, List.map_cons, List.map_nil,
          List.length_append, List.length_cons, List.length_nil]
        rw [hrows, Nat.add_zero, List.range_succ, List.map_append]
        simp only [List.map_cons, List.map_nil]
        rw [hcnt]
        push_cast
        rfl
    · have hne : entityType ≠ t := fun e => hty e.symm
      have hdrop : (entityType == t) = false := beq_eq_false_iff_ne.mpr hne
      constructor
      · rw [counterGet_dinsert_ne _ _ hty, List.filter_append]
        simp only [List.filter_cons, List.filter_nil, hdrop, Bool.false_eq_true,
          if_false, List.append_nil]
        exact (h t).1
      · have hr := (h t).2
        unfold typeRowsCanonical at hr ⊢
        simp only [List.filter_append, List.filter_cons, List.filter_nil, hdrop,
          Bool.false_eq_true, if_false, List.append_nil]
        exact hr

/-- The mapper states reachable through the mutating operations other than
`import_mappings`: a fresh mapper, `get_or_create_pseudonym`, and
`clear_mappings`. -/
inductive MapperReachable : MapperState → Prop where
  | fresh (sid : String) : MapperReachable (freshMapper sid)
  | create (entityText entityType ca : String) {st : MapperState} :
      MapperReachable st →
      MapperReachable (getOrCreatePseudonym st entityText entityType ca).2
  | clearStep {st : MapperState} :
      MapperReachable st → MapperReachable (clearMappings st)

theorem mapperInv_of_reachable {st : MapperState} (h : MapperReachable st) :
    mapperInv st := by
  induction h with
  | fresh sid => exact mapperInv_fresh sid
  | create text ty ca _ ih => exact mapperInv_getOrCreatePseudonym ih text ty ca
  | clearStep _ ih => exact mapperInv_clearMappings ih

/-! ## C7: `type_counters[t]` versus the per-type mapping count -/

/-- C7 (amended): in every session state reachable through
`get_or_create_pseudonym` and `clear_mappings` (i.e. without
`import_mappings`), `type_counters[t]` equals the number of stored mappings
with `entity_type == t`, for every entity type `t`.  `import_mappings` does
*not* preserve this invariant: it rebuilds each counter as the maximum
numeric pseudonym suffix of that type, which can exceed the row count
(`c7_counterexample_import_breaks_invariant`). -/
theorem c7_type_counters_equal_type_counts {st : MapperState}
    (h : MapperReachable st) :
    ∀ t : String,
      counterGet st.typeCounters t
        = ((st.mappings.filter (fun p => p.2.entityType == t)).length : Int) :=
  fun t => (mapperInv_of_reachable h t).1

/-- Witness for `c7_type_counters_equal_type_counts` on a concrete
reachable state with two entities of one type and one of another. -/
theorem c7_type_counters_equal_type_counts_witness :
    counterGet (getOrCreatePseudonym
        (getOrCreatePseudonym
          (getOrCreatePseudonym (freshMapper ("sess-c7")) ("Max") ("PER") ("u1")).2
          ("Anna") ("PER") ("u2")).2
        ("Berlin") ("LOC") ("u3")).2.typeCounters ("PER")
      = (((getOrCreatePseudonym
        (getOrCreatePseudonym
          (getOrCreatePseudonym (freshMapper ("sess-c7")) ("Max") ("PER") ("u1")).2
          ("Anna") ("PER") ("u2")).2
        ("Berlin") ("LOC") ("u3")).2.mappings.filter
          (fun p => p.2.entityType == "PER")).length : Int) :=
  c7_type_counters_equal_type_counts
    (MapperReachable.create ("Berlin") ("LOC") ("u3")
      (MapperReachable.create ("Anna") ("PER") ("u2")
        (MapperReachable.create ("Max") ("PER") ("u1")
          (MapperReachable.fresh ("sess-c7"))))) ("PER")

/-- An import document whose single PER row carries the pseudonym
`PERSON_5`. -/
def c7ImportDocument : MappingsDocument :=
  { sessionId := some "imported-session",
    mappings := [{ original := "Max", pseudonym := "PERSON_5",
                   entityType := "PER", createdAt := "t0" }],
    statsTotalEntities := 1,
    statsByType := [("PER", 5)],
    statsUniqueEntities := 1 }

/-- C7 (counterexample): `import_mappings` rebuilds `type_counters` from the
maximum numeric pseudonym suffix per type, not from row counts.  Importing a
document whose only PER row is `PERSON_5` yields `type_counters["PER"] = 5`
while only one PER mapping is stored, so the claimed invariant is not
preserved by `import_mappings`. -/
theorem c7_counterexample_import_breaks_invariant :
    ¬ (counterGet (importMappings ("u") c7ImportDocument
          (freshMapper ("k"))).typeCounters ("PER")
        = (((importMappings ("u") c7ImportDocument
          (freshMapper ("k"))).mappings.filter
            (fun p => p.2.entityType == "PER")).length : Int)) := by
  decide

/-! ## C4: strictly increasing suffixes per type -/

/-- A run of `get_or_create_pseudonym` calls against one session mapper,
returning the final state and the pseudonyms in call order. -/
def runMapper (st : MapperState) : List (String × String) → MapperState × List String
  | [] => (st, [])
  | r :: rs =>
    let c := getOrCreatePseudonym st r.1 r.2 ""
    let rest := runMapper c.2 rs
    (rest.1, c.1 :: rest.2)

/-- Entity-type labels never contain `':'` (every detector label is drawn
from a fixed colon-free alphabet); this keeps the `f"{text}:{type}"` key
decomposition unambiguous. -/
def colonFree (s : String) : Prop := ':' ∉ s.data

instance (s : String) : Decidable (colonFree s) :=
  inferInstanceAs (Decidable (':' ∉ s.data))

theorem last_colon_cancel : ∀ (a : List Char) {b t u : List Char},
    ':' ∉ t → ':' ∉ u → a ++ ':' :: t = b ++ ':' :: u → t = u := by
  intro a
  induction a with
  | nil =>
    intro b t u ht hu he
    cases b with
    | nil => simpa using he
    | cons c bs =>
      simp only [List.nil_append, List.cons_append, List.cons.injEq] at he
      exfalso
      apply ht
      rw [he.2]
      exact List.mem_append_right _ (by simp)
  | cons c as ih =>
    intro b t u ht hu he
    cases b with
    | nil =>
      simp only [List.nil_append, List.cons_append, List.cons.injEq] at he
      exfalso
      apply hu
      rw [← he.2]
      exact List.mem_append_right _ (by simp)
    | cons d bs =>
      simp only [List.cons_append, List.cons.injEq] at he
      exact ih ht hu he.2

theorem mappingKey_data (text entityType : String) :
    (mappingKey text entityType).data
      = (normalizeEntityText text).data ++ ':' :: entityType.data := by
  simp [mappingKey, String.data_append]

theorem mappingKey_type_inj {t₁ ty₁ t₂ ty₂ : String} (h₁ : colonFree ty₁)
    (h₂ : colonFree ty₂) (he : mappingKey t₁ ty₁ = mappingKey t₂ ty₂) :
    ty₁ = ty₂ := by
  have hd := congrArg String.data he
  rw [mappingKey_data, mappingKey_data] at hd
  exact String.ext (last_colon_cancel _ h₁ h₂ hd)

/-- Every stored key is the canonical key of its row. -/
def mappingsKeysCanonical (st : MapperState) : Prop :=
  ∀ p ∈ st.mappings, p.1 = mappingKey p.2.original p.2.entityType

/-- Every stored row's entity type is colon-free. -/
def mappingsTypesColonFree (st : MapperState) : Prop :=
  ∀ p ∈ st.mappings, colonFree p.2.entityType

theorem dget_some_mem {β : Type} {l : List (String × β)} {k : String} {v : β}
    (h : dget l k = some v) : (k, v) ∈ l := by
  unfold dget at h
  cases hf : l.find? (fun p => p.1 == k) with
  | none => rw [hf] at h; simp at h
  | some p =>
    rw [hf] at h
    simp only [Option.map_some', Option.some.injEq] at h
    have hmem := List.mem_of_find?_eq_some hf
    have hpred := List.find?_some hf
    obtain ⟨a, b⟩ := p
    have hpk : a = k := by simpa using hpred
    simp only at h
    rw [← hpk, ← h]
    exact hmem

theorem getOrCreate_keysCanonical {st : MapperState}
    (h : mappingsKeysCanonical st) (entityText entityType ca : String) :
    mappingsKeysCanonical (getOrCreatePseudonym st entityText entityType ca).2 := by
  cases hk : dget st.mappings (mappingKey entityText entityType) with
  | some m => simpa [getOrCreatePseudonym, hk] using h
  | none =>
    intro p hp
    simp only [getOrCreatePseudonym, hk, List.mem_append, List.mem_singleton] at hp
    rcases hp with hp | hp
    · exact h p hp
    · subst hp; rfl

theorem getOrCreate_typesColonFree {st : MapperState}
    (h : mappingsTypesColonFree st) {entityType : String}
    (hty : colonFree entityType) (entityText ca : String) :
    mappingsTypesColonFree (getOrCreatePseudonym st entityText entityType ca).2 := by
  cases hk : dget st.mappings (mappingKey entityText entityType) with
  | some m => simpa [getOrCreatePseudonym, hk] using h
  | none =>
    intro p hp
    simp only [getOrCreatePseudonym, hk, List.mem_append, List.mem_singleton] at hp
    rcases hp with hp | hp
    · exact h p hp
    · subst hp; exact hty

theorem dget_getOrCreate_mono {st : MapperState} {k : String} {m : EntityMapping}
    (entityText entityType ca : String) (h : dget st.mappings k = some m) :
    dget (getOrCreatePseudonym st entityText entityType ca).2.mappings k = some m := by
  cases hk : dget st.mappings (mappingKey entityText entityType) with
  | some m' => simpa [getOrCreatePseudonym, hk] using h
  | none =>
    simp only [getOrCreatePseudonym, hk]
    exact dget_append_left _ h

theorem runMapper_dget_mono {k : String} {m : EntityMapping} :
    ∀ (reqs : List (String × String)) (st : MapperState),
      dget st.mappings k = some m →
      dget (runMapper st reqs).1.mappings k = some m := by
  intro reqs
  induction reqs with
  | nil => intro st h; exact h
  | cons r rs ih =>
    intro st h
    exact ih _ (dget_getOrCreate_mono r.1 r.2 "" h)

theorem getOrCreate_post_lookup (st : MapperState) (entityText entityType ca : String)
    (hkc : mappingsKeysCanonical st) (htf : mappingsTypesColonFree st)
    (hty : colonFree entityType) :
    ∃ m : EntityMapping,
      dget (getOrCreatePseudonym st entityText entityType ca).2.mappings
        (mappingKey entityText entityType) = some m ∧
      m.entityType = entityType ∧
      (getOrCreatePseudonym st entityText entityType ca).1 = m.pseudonym := by
  cases hk : dget st.mappings (mappingKey entityText entityType) with
  | some m =>
    refine ⟨m, ?_, ?_, ?_⟩
    · simp [getOrCreatePseudonym, hk]
    · have hmem := dget_some_mem hk
      have hkey := hkc _ hmem
      have hcf := htf _ hmem
      exact (mappingKey_type_inj hty hcf hkey).symm
    · simp [getOrCreatePseudonym, hk]
  | none =>
    have hlook : dget (getOrCreatePseudonym st entityText entityType ca).2.mappings
        (mappingKey entityText entityType) = some
          { original := entityText,
            pseudonym := generatePseudonym entityType
              (counterGet st.typeCounters entityType + 1),
            entityType := entityType, sessionId := st.sessionId,
            createdAt := ca } := by
      simp only [getOrCreatePseudonym, hk]
      rw [dget_append_right hk]
      exact dget_singleton_self _ _
    exact ⟨_, hlook, rfl, by simp [getOrCreatePseudonym, hk]⟩

theorem runMapper_lookup : ∀ (reqs : List (String × String)) (st : MapperState),
    mappingsKeysCanonical st → mappingsTypesColonFree st →
    (∀ r ∈ reqs, colonFree r.2) →
    ∀ i : Nat, ∀ hi : i < reqs.length,
      ∃ m : EntityMapping,
        dget (runMapper st reqs).1.mappings
          (mappingKey (reqs.get ⟨i, hi⟩).1 (reqs.get ⟨i, hi⟩).2) = some m ∧
        m.entityType = (reqs.get ⟨i, hi⟩).2 ∧
        (runMapper st reqs).2.getD i "" = m.pseudonym := by
  intro reqs
  induction reqs with
  | nil => intro st _ _ _ i hi; simp at hi
  | cons r rs ih =>
    intro st hkc htf hcf i hi
    have hr : colonFree r.2 := hcf r (by simp)
    obtain ⟨m₀, hm₀, hty₀, hp₀⟩ := getOrCreate_post_lookup st r.1 r.2 "" hkc htf hr
    cases i with
    | zero =>
      refine ⟨m₀, ?_, hty₀, ?_⟩
      · exact runMapper_dget_mono rs _ hm₀
      · simpa [runMapper] using hp₀
    | succ j =>
      have hj : j < rs.length := by simpa using hi
      obtain ⟨m, h1, h2, h3⟩ :=
        ih (getOrCreatePseudonym st r.1 r.2 "").2
          (getOrCreate_keysCanonical hkc r.1 r.2 "")
          (getOrCreate_typesColonFree htf hr r.1 "")
          (fun q hq => hcf q (List.mem_cons_of_mem _ hq)) j hj
      exact ⟨m, h1, h2, h3⟩

theorem runMapper_reachable : ∀ (reqs : List (String × String)) (st : MapperState),
    MapperReachable st → MapperReachable (runMapper st reqs).1 := by
  intro reqs
  induction reqs with
  | nil => intro st h; exact h
  | cons r rs ih => intro st h; exact ih _ (MapperReachable.create r.1 r.2 "" h)

/-- C4: run any sequence of `get_or_create_pseudonym` calls (with colon-free
entity-type labels, as all detector labels are) against a fresh session.
Then for every type `t`:
(1) the stored type-`t` rows, in order of first appearance, carry exactly
the pseudonyms `<PREFIX(t)>_1, <PREFIX(t)>_2, …, <PREFIX(t)>_n` — suffixes
start at 1, are strictly increasing in first-appearance order, and are never
reused; and
(2) every call with type `t` receives exactly the pseudonym of its own
entity's stored row (so distinct normalized originals receive the distinct
suffixes of (1), and repeated originals receive their first-appearance
pseudonym). -/
theorem c4_suffixes_strictly_increasing_from_one (sid : String)
    (reqs : List (String × String)) (t : String)
    (hcf : ∀ r ∈ reqs, colonFree r.2) :
    typeRowsCanonical (runMapper (freshMapper sid) reqs).1 t ∧
    (∀ i : Nat, ∀ hi : i < reqs.length, (reqs.get ⟨i, hi⟩).2 = t →
      ∃ m : EntityMapping,
        dget (runMapper (freshMapper sid) reqs).1.mappings
          (mappingKey (reqs.get ⟨i, hi⟩).1 t) = some m ∧
        m.entityType = t ∧
        (runMapper (freshMapper sid) reqs).2.getD i "" = m.pseudonym) := by
  constructor
  · exact (mapperInv_of_reachable
      (runMapper_reachable reqs _ (MapperReachable.fresh sid)) t).2
  · intro i hi hti
    obtain ⟨m, h1, h2, h3⟩ := runMapper_lookup reqs (freshMapper sid)
      (fun p hp => by simp [freshMapper] at hp)
      (fun p hp => by simp [freshMapper] at hp) hcf i hi
    exact ⟨m, hti ▸ h1, hti ▸ h2, h3⟩

/-- Witness for `c4_suffixes_strictly_increasing_from_one` on a concrete
run: two distinct PER entities, a repeat, and a LOC entity. -/
theorem c4_suffixes_strictly_increasing_from_one_witness :
    (∀ r ∈ ([("Max", "PER"), ("Anna", "PER"), ("MAX ", "PER"),
        ("Berlin", "LOC")] : List (String × String)), colonFree r.2) ∧
    (typeRowsCanonical (runMapper (freshMapper ("sess-c4"))
        [("Max", "PER"), ("Anna", "PER"), ("MAX ", "PER"), ("Berlin", "LOC")]).1
        ("PER") ∧
    (∀ i : Nat, ∀ hi : i < ([("Max", "PER"), ("Anna", "PER"), ("MAX ", "PER"),
        ("Berlin", "LOC")] : List (String × String)).length,
      (([("Max", "PER"), ("Anna", "PER"), ("MAX ", "PER"),
        ("Berlin", "LOC")] : List (String × String)).get ⟨i, hi⟩).2 = "PER" →
      ∃ m : EntityMapping,
        dget (runMapper (freshMapper ("sess-c4"))
          [("Max", "PER"), ("Anna", "PER"), ("MAX ", "PER"),
            ("Berlin", "LOC")]).1.mappings
          (mappingKey (([("Max", "PER"), ("Anna", "PER"), ("MAX ", "PER"),
            ("Berlin", "LOC")] : List (String × String)).get ⟨i, hi⟩).1 ("PER"))
          = some m ∧
        m.entityType = "PER" ∧
        (runMapper (freshMapper ("sess-c4"))
          [("Max", "PER"), ("Anna", "PER"), ("MAX ", "PER"),
            ("Berlin", "LOC")]).2.getD i "" = m.pseudonym)) :=
  ⟨by decide,
    c4_suffixes_strictly_increasing_from_one ("sess-c4")
      [("Max", "PER"), ("Anna", "PER"), ("MAX ", "PER"), ("Berlin", "LOC")]
      ("PER") (by decide)⟩

/-! ## C10: imported session id versus the store key -/

/-- C10: when `import_session_mappings` targets a session the store indexes
under key `K`, the import succeeds and the mapper afterwards reports the
document's `"session_id"` (or the freshly generated UUID when that field is
absent) as its `session_id` — even when that value differs from `K` — while
the store keeps listing and looking the mapper up under `K` unchanged, so
the reported session id and the store key can diverge. -/
theorem c10_import_session_id_diverges_from_store_key
    (store : SessionStore) (storeKey : String) (m : MapperState)
    (doc : MappingsDocument) (freshSid freshImportSid : String)
    (h : dget store storeKey = some m) :
    (importSessionMappings store doc (some storeKey) freshSid freshImportSid).1
      = true ∧
    dget (importSessionMappings store doc (some storeKey) freshSid
        freshImportSid).2 storeKey = some (importMappings freshImportSid doc m) ∧
    (importMappings freshImportSid doc m).sessionId
      = doc.sessionId.getD freshImportSid ∧
    listSessions (importSessionMappings store doc (some storeKey) freshSid
        freshImportSid).2 = listSessions store := by
  have hses : getOrCreateSession store (some storeKey) freshSid
      = (storeKey, m, store) := by
    simp [getOrCreateSession, h]
  refine ⟨rfl, ?_, rfl, ?_⟩
  · simp only [importSessionMappings, hses]
    exact dget_dinsert_self _ _ _
  · simp only [importSessionMappings, hses, listSessions]
    exact dinsert_keys_of_dget_some _ h

/-- Witness for `c10_import_session_id_diverges_from_store_key`: the store
indexes the mapper under `"store-key-1"` while the imported document carries
session id `"divergent-session"`. -/
theorem c10_import_session_id_diverges_from_store_key_witness :
    dget ([(("store-key-1"), freshMapper ("store-key-1"))] : SessionStore)
      ("store-key-1") = some (freshMapper ("store-key-1")) ∧
    ((importSessionMappings [(("store-key-1"), freshMapper ("store-key-1"))]
        { sessionId := some "divergent-session", mappings := [],
          statsTotalEntities := 0, statsByType := [], statsUniqueEntities := 0 }
        (some "store-key-1") ("f1") ("f2")).1 = true ∧
      dget (importSessionMappings [(("store-key-1"), freshMapper ("store-key-1"))]
        { sessionId := some "divergent-session", mappings := [],
          statsTotalEntities := 0, statsByType := [], statsUniqueEntities := 0 }
        (some "store-key-1") ("f1") ("f2")).2 ("store-key-1")
        = some (importMappings ("f2")
            { sessionId := some "divergent-session", mappings := [],
              statsTotalEntities := 0, statsByType := [],
              statsUniqueEntities := 0 } (freshMapper ("store-key-1"))) ∧
      (importMappings ("f2")
          { sessionId := some "divergent-session", mappings := [],
            statsTotalEntities := 0, statsByType := [],
            statsUniqueEntities := 0 } (freshMapper ("store-key-1"))).sessionId
        = (some "divergent-session").getD ("f2") ∧
      listSessions (importSessionMappings
          [(("store-key-1"), freshMapper ("store-key-1"))]
          { sessionId := some "divergent-session", mappings := [],
            statsTotalEntities := 0, statsByType := [], statsUniqueEntities := 0 }
          (some "store-key-1") ("f1") ("f2")).2
        = listSessions [(("store-key-1"), freshMapper ("store-key-1"))]) :=
  ⟨by decide,
    c10_import_session_id_diverges_from_store_key _ _ _ _ _ _ (by decide)⟩

/-! ## C3: export / import round trip -/

theorem dget_append_singleton_ne {β : Type} {l : List (String × β)} {k k' : String}
    (v : β) (h : dget l k' = none) (hne : k' ≠ k) :
    dget (l ++ [(k, v)]) k' = none := by
  rw [dget_append_right h]
  exact dget_singleton_ne _ hne

theorem mappingOfRow_rowOfMapping (m : EntityMapping) :
    mappingOfRow m.sessionId (rowOfMapping m) = m := rfl

theorem import_rebuild : ∀ (l acc : List (String × EntityMapping)) (sid : String),
    (∀ p ∈ l, p.1 = mappingKey p.2.original p.2.entityType) →
    (∀ p ∈ l, p.2.sessionId = sid) →
    ((l.map (fun p => p.1)).Nodup) →
    (∀ p ∈ l, dget acc p.1 = none) →
    ((l.map (fun p => rowOfMapping p.2)).foldl
      (fun a r => dinsert a (mappingKey r.original r.entityType)
        (mappingOfRow sid r)) acc)
      = acc ++ l := by
  intro l
  induction l with
  | nil => intro acc sid _ _ _ _; simp
  | cons p rest ih =>
    intro acc sid hkeys hsid hnodup hacc
    have hkey : mappingKey (rowOfMapping p.2).original
        (rowOfMapping p.2).entityType = p.1 := by
      simpa [rowOfMapping] using (hkeys p (by simp)).symm
    have hrec : mappingOfRow sid (rowOfMapping p.2) = p.2 := by
      rw [← hsid p (by simp)]
      exact mappingOfRow_rowOfMapping p.2
    have hstep : dinsert acc p.1 p.2 = acc ++ [(p.1, p.2)] :=
      dinsert_of_dget_none _ (hacc p (by simp))
    simp only [List.map_cons, List.foldl_cons, hkey, hrec, hstep]
    have hnodup' : (p.1 :: rest.map (fun q => q.1)).Nodup := by
      rw [List.map_cons] at hnodup
      exact hnodup
    have hnd := List.nodup_cons.mp hnodup'
    have ihres := ih (acc ++ [(p.1, p.2)]) sid
      (fun q hq => hkeys q (List.mem_cons_of_mem _ hq))
      (fun q hq => hsid q (List.mem_cons_of_mem _ hq))
      hnd.2
      (fun q hq => dget_append_singleton_ne _ (hacc q (List.mem_cons_of_mem _ hq))
        (fun e => hnd.1 (e ▸ List.mem_map_of_mem (fun r => r.1) hq)))
    rw [ihres, List.append_assoc]
    rfl

theorem importCounterStep_le (cs : List (String × Int)) (m : EntityMapping)
    (t : String) : counterGet cs t ≤ counterGet (importCounterStep cs m) t := by
  unfold importCounterStep
  cases pyInt? (lastSegment m.pseudonym) with
  | some k =>
    by_cases ht : t = m.entityType
    · subst ht
      rw [counterGet_dinsert_self]
      exact le_max_left _ _
    · rw [counterGet_dinsert_ne _ _ ht]
  | none =>
    by_cases ht : t = m.entityType
    · subst ht
      rw [counterGet_dinsert_self]
      omega
    · rw [counterGet_dinsert_ne _ _ ht]

theorem foldl_importCounterStep_le :
    ∀ (l : List (String × EntityMapping)) (cs : List (String × Int)) (t : String),
      counterGet cs t
        ≤ counterGet (l.foldl (fun c q => importCounterStep c q.2) cs) t := by
  intro l
  induction l with
  | nil => intro cs t; exact le_refl _
  | cons q rest ih =>
    intro cs t
    exact le_trans (importCounterStep_le cs q.2 t) (ih _ t)

theorem importCounters_ge_suffix :
    ∀ (l : List (String × EntityMapping)) (cs : List (String × Int)),
      ∀ p ∈ l, ∀ k : Int, pyInt? (lastSegment p.2.pseudonym) = some k →
        k ≤ counterGet (l.foldl (fun c q => importCounterStep c q.2) cs)
          p.2.entityType := by
  intro l
  induction l with
  | nil => intro cs p hp; simp at hp
  | cons q rest ih =>
    intro cs p hp k hk
    rcases List.mem_cons.mp hp with hp | hp
    · subst hp
      refine le_trans ?_ (foldl_importCounterStep_le rest _ p.2.entityType)
      show k ≤ counterGet (importCounterStep cs p.2) p.2.entityType
      unfold importCounterStep
      rw [hk, counterGet_dinsert_self]
      exact le_max_right _ _
    · exact ih _ p hp k hk

/-- The well-formedness every real mapper state has: keys are the canonical
keys of their rows, keys are unique (it is a dict), and every row carries the
session's id.  These hold in every state built by `get_or_create_pseudonym`
or a previous import. -/
def mapperWF (st : MapperState) : Prop :=
  mappingsKeysCanonical st ∧ ((st.mappings.map (fun p => p.1)).Nodup) ∧
  ∀ p ∈ st.mappings, p.2.sessionId = st.sessionId

instance (st : MapperState) : Decidable (mapperWF st) := by
  unfold mapperWF mappingsKeysCanonical
  infer_instance

theorem counterGet_getOrCreate_le (st : MapperState)
    (entityText entityType ca t : String) :
    counterGet st.typeCounters t
      ≤ counterGet (getOrCreatePseudonym st entityText entityType ca).2.typeCounters
          t := by
  cases hk : dget st.mappings (mappingKey entityText entityType) with
  | some m => simp [getOrCreatePseudonym, hk]
  | none =>
    simp only [getOrCreatePseudonym, hk]
    by_cases ht : t = entityType
    · subst ht
      rw [counterGet_dinsert_self]
      omega
    · rw [counterGet_dinsert_ne _ _ ht]

theorem runMapper_counterGet_le :
    ∀ (reqs : List (String × String)) (st : MapperState) (t : String),
      counterGet st.typeCounters t
        ≤ counterGet (runMapper st reqs).1.typeCounters t := by
  intro reqs
  induction reqs with
  | nil => intro st t; exact le_refl _
  | cons r rs ih =>
    intro st t
    exact le_trans (counterGet_getOrCreate_le st r.1 r.2 "" t) (ih _ t)

/-- C3: exporting a session and importing the document into any mapper
reproduces an identical mapping table (same keys, rows, order, `created_at`),
the same session id, and identical statistics.  The rebuilt type counters
dominate every imported numeric suffix, and type counters never decrease
under further `get_or_create_pseudonym` calls, so **every** entity newly
created in the imported session afterwards — after any sequence of further
calls — receives the suffix `counter + 1` of its creation state, which is
strictly greater than the maximum imported numeric suffix of its type; no
collision with an imported pseudonym of that type is possible. -/
theorem c3_export_import_roundtrip (st stInit : MapperState) (freshSid : String)
    (hwf : mapperWF st) :
    (importMappings freshSid (exportMappings st) stInit).mappings = st.mappings ∧
    (importMappings freshSid (exportMappings st) stInit).sessionId
      = st.sessionId ∧
    getStatistics (importMappings freshSid (exportMappings st) stInit)
      = getStatistics st ∧
    (∀ p ∈ st.mappings, ∀ k : Int,
      pyInt? (lastSegment p.2.pseudonym) = some k →
      k < counterGet
          (importMappings freshSid (exportMappings st) stInit).typeCounters
          p.2.entityType + 1) ∧
    (∀ laterCalls : List (String × String), ∀ entityText entityType ca : String,
      dget (runMapper (importMappings freshSid (exportMappings st) stInit)
          laterCalls).1.mappings (mappingKey entityText entityType) = none →
      (getOrCreatePseudonym (runMapper (importMappings freshSid
          (exportMappings st) stInit) laterCalls).1 entityText entityType ca).1
        = generatePseudonym entityType
            (counterGet (runMapper (importMappings freshSid (exportMappings st)
              stInit) laterCalls).1.typeCounters entityType + 1) ∧
      (∀ p ∈ st.mappings, p.2.entityType = entityType →
        ∀ k : Int, pyInt? (lastSegment p.2.pseudonym) = some k →
          k < counterGet (runMapper (importMappings freshSid (exportMappings st)
            stInit) laterCalls).1.typeCounters entityType + 1)) := by
  obtain ⟨hkc, hnd, hsid⟩ := hwf
  have hmaps : (importMappings freshSid (exportMappings st) stInit).mappings
      = st.mappings := by
    simp only [importMappings, exportMappings, Option.getD_some]
    exact import_rebuild st.mappings [] st.sessionId hkc hsid hnd
      (fun p _ => rfl)
  have hsid' : (importMappings freshSid (exportMappings st) stInit).sessionId
      = st.sessionId := by
    simp [importMappings, exportMappings]
  have hcounters : (importMappings freshSid (exportMappings st) stInit).typeCounters
      = st.mappings.foldl (fun c q => importCounterStep c q.2) [] := by
    rw [show (importMappings freshSid (exportMappings st) stInit).typeCounters
        = (importMappings freshSid (exportMappings st) stInit).mappings.foldl
          (fun c q => importCounterStep c q.2) [] from rfl, hmaps]
  refine ⟨hmaps, hsid', ?_, ?_, ?_⟩
  · unfold getStatistics
    rw [hmaps, hsid']
  · intro p hp k hk
    have := importCounters_ge_suffix st.mappings [] p hp k hk
    rw [hcounters]
    omega
  · intro laterCalls entityText entityType ca hmiss
    constructor
    · simp [getOrCreatePseudonym, hmiss]
    · intro p hp hpt k hk
      have h1 := importCounters_ge_suffix st.mappings [] p hp k hk
      rw [← hcounters] at h1
      have h2 := runMapper_counterGet_le laterCalls
        (importMappings freshSid (exportMappings st) stInit) p.2.entityType
      rw [hpt] at h1 h2
      omega

/-- Witness for `c3_export_import_roundtrip` on a session holding two PER
entities and one LOC entity, imported over an unrelated mapper. -/
theorem c3_export_import_roundtrip_witness :
    mapperWF (runMapper (freshMapper ("sess-c3"))
        [("Max", "PER"), ("Anna", "PER"), ("Berlin", "LOC")]).1 ∧
    ((importMappings ("f-c3") (exportMappings (runMapper (freshMapper ("sess-c3"))
        [("Max", "PER"), ("Anna", "PER"), ("Berlin", "LOC")]).1)
        (freshMapper ("other"))).mappings
      = (runMapper (freshMapper ("sess-c3"))
        [("Max", "PER"), ("Anna", "PER"), ("Berlin", "LOC")]).1.mappings ∧
    (importMappings ("f-c3") (exportMappings (runMapper (freshMapper ("sess-c3"))
        [("Max", "PER"), ("Anna", "PER"), ("Berlin", "LOC")]).1)
        (freshMapper ("other"))).sessionId
      = (runMapper (freshMapper ("sess-c3"))
        [("Max", "PER"), ("Anna", "PER"), ("Berlin", "LOC")]).1.sessionId ∧
    getStatistics (importMappings ("f-c3")
        (exportMappings (runMapper (freshMapper ("sess-c3"))
          [("Max", "PER"), ("Anna", "PER"), ("Berlin", "LOC")]).1)
        (freshMapper ("other")))
      = getStatistics (runMapper (freshMapper ("sess-c3"))
        [("Max", "PER"), ("Anna", "PER"), ("Berlin", "LOC")]).1 ∧
    (∀ p ∈ (runMapper (freshMapper ("sess-c3"))
        [("Max", "PER"), ("Anna", "PER"), ("Berlin", "LOC")]).1.mappings,
      ∀ k : Int, pyInt? (lastSegment p.2.pseudonym) = some k →
      k < counterGet (importMappings ("f-c3")
          (exportMappings (runMapper (freshMapper ("sess-c3"))
            [("Max", "PER"), ("Anna", "PER"), ("Berlin", "LOC")]).1)
          (freshMapper ("other"))).typeCounters p.2.entityType + 1) ∧
    (∀ laterCalls : List (String × String), ∀ entityText entityType ca : String,
      dget (runMapper (importMappings ("f-c3") (exportMappings
          (runMapper (freshMapper ("sess-c3"))
            [("Max", "PER"), ("Anna", "PER"), ("Berlin", "LOC")]).1)
          (freshMapper ("other"))) laterCalls).1.mappings
        (mappingKey entityText entityType) = none →
      (getOrCreatePseudonym (runMapper (importMappings ("f-c3") (exportMappings
          (runMapper (freshMapper ("sess-c3"))
            [("Max", "PER"), ("Anna", "PER"), ("Berlin", "LOC")]).1)
          (freshMapper ("other"))) laterCalls).1 entityText entityType ca).1
        = generatePseudonym entityType
            (counterGet (runMapper (importMappings ("f-c3") (exportMappings
              (runMapper (freshMapper ("sess-c3"))
                [("Max", "PER"), ("Anna", "PER"), ("Berlin", "LOC")]).1)
              (freshMapper ("other"))) laterCalls).1.typeCounters entityType + 1) ∧
      (∀ p ∈ (runMapper (freshMapper ("sess-c3"))
          [("Max", "PER"), ("Anna", "PER"), ("Berlin", "LOC")]).1.mappings,
        p.2.entityType = entityType →
        ∀ k : Int, pyInt? (lastSegment p.2.pseudonym) = some k →
          k < counterGet (runMapper (importMappings ("f-c3") (exportMappings
            (runMapper (freshMapper ("sess-c3"))
              [("Max", "PER"), ("Anna", "PER"), ("Berlin", "LOC")]).1)
            (freshMapper ("other"))) laterCalls).1.typeCounters entityType + 1))) :=
  ⟨by decide,
    c3_export_import_roundtrip (runMapper (freshMapper ("sess-c3"))
        [("Max", "PER"), ("Anna", "PER"), ("Berlin", "LOC")]).1
      (freshMapper ("other")) ("f-c3") (by decide)⟩
